import Mathlib

/-!
Verification of the "smart thread" subsystem of the `kai` crate
(`src/thread.rs`): `ThreadStatus`, the lock-guarded status cell shared
between a spawned worker and its `SmartHandle`, and the operations
`spawn_smart`, `SmartHandle::{join, status, thread, into_inner}`.

The pure API surface is embedded as total Lean functions.  The worker's
lifecycle (user code runs, the status cell is written, the join result is
published) is embedded as a small-step transition system so that the
invariant, monotonicity and ordering properties can be stated over
executions.

Panics of the user work are values: the outcome of running the user
closure under `catch_unwind` is an `Except E T`, where `Except.error e`
carries the panic payload `e` and `Except.ok v` is a normal return of `v`.
-/

/-- The execution status of a thread.  Mirrors `enum ThreadStatus` in
`src/thread.rs`: a closed tag with exactly the three values
`Running`, `Finished`, `Panicked`. -/
inductive ThreadStatus : Type where
  | Running : ThreadStatus
  | Finished : ThreadStatus
  | Panicked : ThreadStatus
deriving DecidableEq, Repr, BEq

/-- Mirrors `ThreadStatus::is_running`: `self == ThreadStatus::Running`. -/
def ThreadStatus.is_running (s : ThreadStatus) : Bool :=
  s == ThreadStatus.Running

/-- Mirrors `ThreadStatus::finished`: `self == ThreadStatus::Finished`. -/
def ThreadStatus.finished (s : ThreadStatus) : Bool :=
  s == ThreadStatus.Finished

/-- Mirrors `ThreadStatus::panicked`: `self == ThreadStatus::Panicked`. -/
def ThreadStatus.panicked (s : ThreadStatus) : Bool :=
  s == ThreadStatus.Panicked

/-- The state of the shared `Arc<Mutex<ThreadStatus>>`: the stored value
together with the mutex poison flag (`poisoned = true` models a mutex
whose `lock()` returns `Err(PoisonError)` because a previous holder
panicked while holding it). -/
structure StatusCell : Type where
  value : ThreadStatus
  poisoned : Bool
deriving DecidableEq, Repr

/-- Reading the cell as `SmartHandle::status` does:
`self.status.lock().map(|guard| ThreadStatus::clone(&*guard)).unwrap_or(ThreadStatus::Panicked)`.
A poisoned lock makes `lock()` return `Err`, so the `map` is skipped and
`unwrap_or` substitutes `Panicked`; otherwise the stored value is cloned. -/
def statusRead (c : StatusCell) : ThreadStatus :=
  if c.poisoned then ThreadStatus.Panicked else c.value

/-- The platform identity of a thread (`std::thread::Thread`): an id and
an optional name. -/
structure Thread : Type where
  id : Nat
  threadName : Option Nat
deriving DecidableEq, Repr

/-- Model of `std::thread::JoinHandle<A>`: the identity of the underlying
thread and the value `join()` will deliver — `Except.ok a` when the
thread's closure returned `a` normally, `Except.error e` when the thread
itself unwound with payload `e`. -/
structure JoinHandle (E A : Type) : Type where
  thread : Thread
  joinResult : Except E A
deriving Repr

/-- Mirrors `struct SmartHandle<T>`: the underlying
`JoinHandle<Result<T>>` plus the shared status cell (the
`status: Arc<Mutex<ThreadStatus>>` field, here called `cell` because the
reading method keeps the source name `status`). -/
structure SmartHandle (T E : Type) : Type where
  handle : JoinHandle E (Except E T)
  cell : StatusCell

/-- Mirrors `SmartHandle::join`: `self.handle.join().and_then(|r| r)`. -/
def SmartHandle.join {T E : Type} (h : SmartHandle T E) : Except E T :=
  h.handle.joinResult.bind fun r => r

/-- Mirrors `SmartHandle::status` (see `statusRead`). -/
def SmartHandle.status {T E : Type} (h : SmartHandle T E) : ThreadStatus :=
  statusRead h.cell

/-- Mirrors `SmartHandle::thread`: `self.handle.thread()`, a field read. -/
def SmartHandle.thread {T E : Type} (h : SmartHandle T E) : Thread :=
  h.handle.thread

/-- The `&self` method `SmartHandle::thread` as a state transformer:
it yields the thread identity and hands the handle back untouched.  This
is the shape in which the frame property is stated. -/
def SmartHandle.threadCall {T E : Type} (h : SmartHandle T E) :
    Thread × SmartHandle T E :=
  (h.handle.thread, h)

/-- Mirrors `SmartHandle::into_inner`: `self.handle`. -/
def SmartHandle.into_inner {T E : Type} (h : SmartHandle T E) :
    JoinHandle E (Except E T) :=
  h.handle

/-- The body of the worker closure spawned by `spawn_smart`, given the
outcome of `std::panic::catch_unwind(f)` and the status cell it sees when
it performs its write.  It returns the value the closure returns to the
thread runtime together with the updated cell:
on `Err(e)` it sets the cell to `Panicked` (only if `lock()` succeeds,
i.e. the cell is not poisoned) and returns `Err(e)`;
on `Ok(res)` it sets the cell to `Finished` (again only if `lock()`
succeeds) and returns `Ok(res)`. -/
def workerBody {T E : Type} (outcome : Except E T) (c : StatusCell) :
    Except E T × StatusCell :=
  match outcome with
  | Except.error e =>
      (Except.error e,
       if c.poisoned then c else { c with value := ThreadStatus.Panicked })
  | Except.ok v =>
      (Except.ok v,
       if c.poisoned then c else { c with value := ThreadStatus.Finished })

/-- Mirrors `spawn_smart`: allocate the cell at `Running` (unpoisoned),
share it with the worker, and start the worker.  `outcome` is the result
of `catch_unwind(f)` for the given run of the user work `f`.  Every
operation in the worker closure after `catch_unwind` is non-unwinding
(`lock()` returns a `Result`, assignment and `return` cannot panic), so
the spawned thread always terminates normally and the raw join result is
`Ok` of whatever the closure body returns. -/
def spawn_smart {T E : Type} (ident : Thread) (outcome : Except E T) :
    SmartHandle T E :=
  let c : StatusCell := { value := ThreadStatus.Running, poisoned := false }
  { cell := c
    handle :=
      { thread := ident
        joinResult := Except.ok (workerBody outcome c).1 } }

/-- The terminal status the worker writes for a given outcome of the user
work: `Finished` for a normal return, `Panicked` for a caught unwind. -/
def terminalOf {T E : Type} (r : Except E T) : ThreadStatus :=
  match r with
  | Except.ok _ => ThreadStatus.Finished
  | Except.error _ => ThreadStatus.Panicked

/-- The phase of the worker thread spawned by `spawn_smart`, as ordered by
the program text of the worker closure:
user code still running; user code returned or unwound with outcome `r`
but the status write has not executed yet; the status write has executed;
the closure has returned, so the thread has terminated and the raw join
result is published. -/
inductive Phase (T E : Type) : Type where
  | running : Phase T E
  | completed : Except E T → Phase T E
  | written : Except E T → Phase T E
  | terminated : Except E T → Phase T E

/-- Global state of one spawned worker: its phase and the shared cell. -/
structure SysState (T E : Type) : Type where
  phase : Phase T E
  cell : StatusCell

/-- The state right after `spawn_smart` returns: the cell was freshly
allocated at `Running`, unpoisoned, and the worker has not completed. -/
def initState (T E : Type) : SysState T E :=
  { phase := Phase.running
    cell := { value := ThreadStatus.Running, poisoned := false } }

/-- One step of the worker.  `complete` is the return of
`catch_unwind(f)` with outcome `r`; `write` is the
`if let Ok(mut status) = status_clone.lock() { *status = ... }` block,
whose effect on the cell is exactly `(workerBody r c).2`; `publish` is the
closure returning, which terminates the thread and publishes the raw join
result.  No step is possible from `terminated`, and `status()` readers do
not change the state. -/
inductive Step {T E : Type} : SysState T E → SysState T E → Prop where
  | complete (r : Except E T) (c : StatusCell) :
      Step { phase := Phase.running, cell := c }
           { phase := Phase.completed r, cell := c }
  | write (r : Except E T) (c : StatusCell) :
      Step { phase := Phase.completed r, cell := c }
           { phase := Phase.written r, cell := (workerBody r c).2 }
  | publish (r : Except E T) (c : StatusCell) :
      Step { phase := Phase.written r, cell := c }
           { phase := Phase.terminated r, cell := c }

/-- States reachable from the post-spawn state. -/
def Reachable {T E : Type} (s : SysState T E) : Prop :=
  Relation.ReflTransGen Step (initState T E) s

/-- The inductive invariant of a worker execution: the lock is never
poisoned (no code path of the module panics while holding it), the cell
still reads `Running` until the write step, and from the write step on it
holds exactly the terminal status of the outcome. -/
def SysInv {T E : Type} : SysState T E → Prop
  | { phase := Phase.running, cell := c } =>
      c.poisoned = false ∧ c.value = ThreadStatus.Running
  | { phase := Phase.completed _, cell := c } =>
      c.poisoned = false ∧ c.value = ThreadStatus.Running
  | { phase := Phase.written r, cell := c } =>
      c.poisoned = false ∧ c.value = terminalOf r
  | { phase := Phase.terminated r, cell := c } =>
      c.poisoned = false ∧ c.value = terminalOf r

theorem sysInv_init {T E : Type} : SysInv (initState T E) := by
  constructor <;> rfl

theorem sysInv_step {T E : Type} {s s' : SysState T E}
    (hs : SysInv s) (h : Step s s') : SysInv s' := by
  cases h with
  | complete r c => exact hs
  | write r c =>
      obtain ⟨hp, hv⟩ := hs
      cases r with
      | ok v => simp [SysInv, workerBody, hp, terminalOf]
      | error e => simp [SysInv, workerBody, hp, terminalOf]
  | publish r c => exact hs

theorem sysInv_reachable {T E : Type} {s : SysState T E}
    (h : Reachable s) : SysInv s := by
  induction h with
  | refl => exact sysInv_init
  | tail _ hstep ih => exact sysInv_step ih hstep

/-- Claim C1: for every value `v` and every work closure that returns `v`
normally, `join()` on the handle returned by `spawn_smart` yields exactly
`Ok(v)`. -/
theorem spawn_smart_join_ok :
    ∀ (T E : Type) (ident : Thread) (v : T),
      (spawn_smart (E := E) ident (Except.ok v)).join = Except.ok v := by
  intro T E ident v
  rfl

/-- Claim C2: for every work closure that panics with payload `e`,
`join()` returns an error carrying the payload, and the raw join result of
the underlying thread is `Ok(Err(e))` — the thread itself terminated
normally, so the panic is contained and never propagates to the spawning
thread.  Both operations are total functions of the model, so neither can
itself panic or hang. -/
theorem spawn_smart_join_panic_contained :
    ∀ (T E : Type) (ident : Thread) (e : E),
      (spawn_smart (T := T) ident (Except.error e)).join = Except.error e ∧
      (spawn_smart (T := T) ident (Except.error e)).handle.joinResult =
        Except.ok (Except.error e) := by
  intro T E ident e
  exact ⟨rfl, rfl⟩

/-- Claim C5: `status()` never fails.  For every handle it returns one of
the three `ThreadStatus` values; when the cell's lock is poisoned it
substitutes `Panicked` instead of propagating an error, and when the lock
is healthy it returns the stored value. -/
theorem status_never_fails :
    ∀ (T E : Type) (h : SmartHandle T E) (v : ThreadStatus),
      (h.status = ThreadStatus.Running ∨ h.status = ThreadStatus.Finished ∨
        h.status = ThreadStatus.Panicked) ∧
      SmartHandle.status
          { handle := h.handle, cell := { value := v, poisoned := true } } =
        ThreadStatus.Panicked ∧
      SmartHandle.status
          { handle := h.handle, cell := { value := v, poisoned := false } } =
        v := by
  intro T E h v
  refine ⟨?_, rfl, rfl⟩
  cases hst : h.status <;> simp

/-- Claim C8: the three predicate accessors of `ThreadStatus` each
characterize their variant, exactly one of them holds for every status
value, and no fourth status value exists. -/
theorem threadStatus_predicates_partition :
    ∀ s : ThreadStatus,
      (s.is_running = true ↔ s = ThreadStatus.Running) ∧
      (s.finished = true ↔ s = ThreadStatus.Finished) ∧
      (s.panicked = true ↔ s = ThreadStatus.Panicked) ∧
      (s = ThreadStatus.Running ∨ s = ThreadStatus.Finished ∨
        s = ThreadStatus.Panicked) ∧
      ((if s.is_running then 1 else 0) + (if s.finished then 1 else 0) +
        (if s.panicked then 1 else 0) = 1) := by
  intro s
  cases s <;> decide

/-- Instance of the predicate partition at a concrete status value. -/
theorem threadStatus_predicates_partition_witness :
    (ThreadStatus.Panicked.is_running = true ↔
      ThreadStatus.Panicked = ThreadStatus.Running) ∧
    (ThreadStatus.Panicked.finished = true ↔
      ThreadStatus.Panicked = ThreadStatus.Finished) ∧
    (ThreadStatus.Panicked.panicked = true ↔
      ThreadStatus.Panicked = ThreadStatus.Panicked) ∧
    (ThreadStatus.Panicked = ThreadStatus.Running ∨
      ThreadStatus.Panicked = ThreadStatus.Finished ∨
      ThreadStatus.Panicked = ThreadStatus.Panicked) ∧
    ((if ThreadStatus.Panicked.is_running then 1 else 0) +
      (if ThreadStatus.Panicked.finished then 1 else 0) +
      (if ThreadStatus.Panicked.panicked then 1 else 0) = 1) :=
  threadStatus_predicates_partition ThreadStatus.Panicked

/-- Claim C9: `SmartHandle::thread` returns the worker's platform
identity, does not consume the handle, and leaves the status cell and all
other handle state unchanged. -/
theorem thread_identity_frame :
    ∀ (T E : Type) (ident : Thread) (outcome : Except E T)
      (h : SmartHandle T E),
      h.threadCall = (h.handle.thread, h) ∧
      (spawn_smart ident outcome).threadCall.1 = ident ∧
      (spawn_smart ident outcome).threadCall.2.cell =
        { value := ThreadStatus.Running, poisoned := false } ∧
      (spawn_smart ident outcome).threadCall.2 = spawn_smart ident outcome := by
  intro T E ident outcome h
  exact ⟨rfl, rfl, rfl, rfl⟩

/-- Claim C10: the worker closure never unwinds — for every outcome of the
user work the raw `JoinHandle` (exposed by `into_inner`) joins to
`Ok(inner)` where `inner` is `Ok(v)` on normal return and `Err(payload)`
on a caught panic; the outer `Err` branch of `handle.join()` inside
`SmartHandle::join` is never taken for panics of the work itself. -/
theorem worker_never_unwinds :
    ∀ (T E : Type) (ident : Thread) (outcome : Except E T),
      ∃ inner : Except E T,
        (spawn_smart ident outcome).into_inner.joinResult = Except.ok inner ∧
        inner = outcome ∧
        (spawn_smart ident outcome).join = inner := by
  intro T E ident outcome
  refine ⟨outcome, ?_, rfl, ?_⟩
  · cases outcome <;> rfl
  · cases outcome <;> rfl

theorem status_frozen_step {T E : Type} {s s' : SysState T E}
    (hinv : SysInv s) (hne : statusRead s.cell ≠ ThreadStatus.Running)
    (h : Step s s') : s'.cell = s.cell := by
  cases h with
  | complete r c => rfl
  | write r c =>
      have hc : c.poisoned = false ∧ c.value = ThreadStatus.Running := hinv
      simp [statusRead, hc.1, hc.2] at hne
  | publish r c => rfl

theorem after_terminated_shape {T E : Type} (r : Except E T) (c : StatusCell) :
    ∀ s' : SysState T E,
      Relation.ReflTransGen Step { phase := Phase.terminated r, cell := c } s' →
      s' = { phase := Phase.terminated r, cell := c } := by
  intro s' h
  induction h with
  | refl => rfl
  | tail hab hbc ih =>
      subst ih
      cases hbc

theorem after_write_shape {T E : Type} (r : Except E T) (c : StatusCell) :
    ∀ s' : SysState T E,
      Relation.ReflTransGen Step { phase := Phase.written r, cell := c } s' →
      s' = { phase := Phase.written r, cell := c } ∨
      s' = { phase := Phase.terminated r, cell := c } := by
  intro s' h
  induction h with
  | refl => exact Or.inl rfl
  | tail hab hbc ih =>
      cases ih with
      | inl hb =>
          subst hb
          cases hbc
          exact Or.inr rfl
      | inr hb =>
          subst hb
          cases hbc

/-- Claim C3: the status cell starts at `Running`, and over any execution
the sequence of `status()` observations is monotone: once an observation
is no longer `Running`, every later observation returns the same terminal
value — the cell transitions at most once, never back to `Running` and
never between `Finished` and `Panicked`. -/
theorem statusCell_monotone :
    ∀ (T E : Type) (s s' : SysState T E),
      Reachable s → Relation.ReflTransGen Step s s' →
      statusRead (initState T E).cell = ThreadStatus.Running ∧
      (statusRead s.cell = ThreadStatus.Running ∨
        statusRead s'.cell = statusRead s.cell) := by
  intro T E s s' hreach hsteps
  refine ⟨rfl, ?_⟩
  by_cases hr : statusRead s.cell = ThreadStatus.Running
  · exact Or.inl hr
  · right
    induction hsteps with
    | refl => rfl
    | @tail b c hab hbc ih =>
        have hb := sysInv_reachable (hreach.trans hab)
        have hne : statusRead b.cell ≠ ThreadStatus.Running := by
          rw [ih]
          exact hr
        have hcell := status_frozen_step hb hne hbc
        rw [hcell, ih]

/-- Claim C4: once the worker has terminated, the status matches the
outcome of the user code — `Finished` exactly when the work returned
normally, `Panicked` exactly when it panicked. -/
theorem terminal_status_matches_outcome :
    ∀ (T E : Type) (s : SysState T E) (r : Except E T),
      Reachable s → s.phase = Phase.terminated r →
      (statusRead s.cell = ThreadStatus.Finished ↔ ∃ v, r = Except.ok v) ∧
      (statusRead s.cell = ThreadStatus.Panicked ↔ ∃ e, r = Except.error e) := by
  intro T E s r hreach hphase
  have hinv := sysInv_reachable hreach
  obtain ⟨p, c⟩ := s
  simp only at hphase
  subst hphase
  have hc : c.poisoned = false ∧ c.value = terminalOf r := hinv
  cases r with
  | ok v => simp [statusRead, hc.1, hc.2, terminalOf]
  | error e => simp [statusRead, hc.1, hc.2, terminalOf]

/-- Claim C7: if an observer sees a terminal value through `status()`,
the user work has already finished and the status write has already
executed, so the only step possibly left for the worker is publishing the
already-determined result `r`: every continuation of the execution stays
within the two final states with the cell unchanged, the terminated state
is reachable from here, and the observed status matches `r` — hence a
subsequent `join()` returns `r` without waiting on user code. -/
theorem terminal_status_implies_join_ready :
    ∀ (T E : Type) (s : SysState T E),
      Reachable s →
      (statusRead s.cell = ThreadStatus.Finished ∨
        statusRead s.cell = ThreadStatus.Panicked) →
      ∃ r : Except E T,
        statusRead s.cell = terminalOf r ∧
        (s.phase = Phase.written r ∨ s.phase = Phase.terminated r) ∧
        Relation.ReflTransGen Step s
          { phase := Phase.terminated r, cell := s.cell } ∧
        (∀ s' : SysState T E, Relation.ReflTransGen Step s s' →
          s' = { phase := Phase.written r, cell := s.cell } ∨
          s' = { phase := Phase.terminated r, cell := s.cell }) := by
  intro T E s hreach hterm
  have hinv := sysInv_reachable hreach
  obtain ⟨p, c⟩ := s
  cases p with
  | running =>
      have hc : c.poisoned = false ∧ c.value = ThreadStatus.Running := hinv
      simp [statusRead, hc.1, hc.2] at hterm
  | completed r =>
      have hc : c.poisoned = false ∧ c.value = ThreadStatus.Running := hinv
      simp [statusRead, hc.1, hc.2] at hterm
  | written r =>
      have hc : c.poisoned = false ∧ c.value = terminalOf r := hinv
      refine ⟨r, by simp [statusRead, hc.1, hc.2], Or.inl rfl, ?_, ?_⟩
      · exact Relation.ReflTransGen.single (Step.publish r c)
      · exact after_write_shape r c
  | terminated r =>
      have hc : c.poisoned = false ∧ c.value = terminalOf r := hinv
      refine ⟨r, by simp [statusRead, hc.1, hc.2], Or.inr rfl, ?_, ?_⟩
      · exact Relation.ReflTransGen.refl
      · intro s' h
        exact Or.inr (after_terminated_shape r c s' h)

/-- A concrete post-write state used to instantiate the reachability
theorems: a worker over `Nat` that returned `0`, after its status write. -/
def sampleWritten : SysState Nat Nat :=
  { phase := Phase.written (Except.ok 0)
    cell := { value := ThreadStatus.Finished, poisoned := false } }

/-- The terminated state following `sampleWritten`. -/
def sampleTerminated : SysState Nat Nat :=
  { phase := Phase.terminated (Except.ok 0)
    cell := { value := ThreadStatus.Finished, poisoned := false } }

theorem sampleWritten_reachable : Reachable sampleWritten := by
  refine Relation.ReflTransGen.head
    (Step.complete (Except.ok 0)
      { value := ThreadStatus.Running, poisoned := false }) ?_
  exact Relation.ReflTransGen.single
    (Step.write (Except.ok 0)
      { value := ThreadStatus.Running, poisoned := false })

theorem sampleTerminated_reachable : Reachable sampleTerminated :=
  sampleWritten_reachable.tail
    (Step.publish (Except.ok 0)
      { value := ThreadStatus.Finished, poisoned := false })

/-- Instance of the monotonicity theorem on a concrete execution. -/
theorem statusCell_monotone_witness :
    Reachable sampleWritten ∧
    Relation.ReflTransGen Step sampleWritten sampleTerminated ∧
    (statusRead (initState Nat Nat).cell = ThreadStatus.Running ∧
      (statusRead sampleWritten.cell = ThreadStatus.Running ∨
        statusRead sampleTerminated.cell = statusRead sampleWritten.cell)) :=
  ⟨sampleWritten_reachable,
   Relation.ReflTransGen.single
     (Step.publish (Except.ok 0)
       { value := ThreadStatus.Finished, poisoned := false }),
   statusCell_monotone Nat Nat sampleWritten sampleTerminated
     sampleWritten_reachable
     (Relation.ReflTransGen.single
       (Step.publish (Except.ok 0)
         { value := ThreadStatus.Finished, poisoned := false }))⟩

/-- Instance of the terminal-status theorem on a concrete execution. -/
theorem terminal_status_matches_outcome_witness :
    Reachable sampleTerminated ∧
    sampleTerminated.phase = Phase.terminated (Except.ok 0) ∧
    ((statusRead sampleTerminated.cell = ThreadStatus.Finished ↔
        ∃ v : Nat, (Except.ok 0 : Except Nat Nat) = Except.ok v) ∧
      (statusRead sampleTerminated.cell = ThreadStatus.Panicked ↔
        ∃ e : Nat, (Except.ok 0 : Except Nat Nat) = Except.error e)) := by
  refine ⟨sampleTerminated_reachable, rfl, ?_⟩
  have h := terminal_status_matches_outcome Nat Nat sampleTerminated
    (Except.ok 0) sampleTerminated_reachable rfl
  constructor
  · constructor
    · intro hf
      exact ⟨0, rfl⟩
    · intro _
      exact h.1.mpr ⟨0, rfl⟩
  · constructor
    · intro hp
      exact absurd hp (by simp [h.2])
    · intro he
      obtain ⟨e, he⟩ := he
      exact absurd he (by simp)

/-- Instance of the join-readiness theorem on a concrete execution. -/
theorem terminal_status_implies_join_ready_witness :
    Reachable sampleWritten ∧
    (statusRead sampleWritten.cell = ThreadStatus.Finished ∨
      statusRead sampleWritten.cell = ThreadStatus.Panicked) ∧
    (∃ r : Except Nat Nat,
      statusRead sampleWritten.cell = terminalOf r ∧
      (sampleWritten.phase = Phase.written r ∨
        sampleWritten.phase = Phase.terminated r) ∧
      Relation.ReflTransGen Step sampleWritten
        { phase := Phase.terminated r, cell := sampleWritten.cell } ∧
      (∀ s' : SysState Nat Nat, Relation.ReflTransGen Step sampleWritten s' →
        s' = { phase := Phase.written r, cell := sampleWritten.cell } ∨
        s' = { phase := Phase.terminated r, cell := sampleWritten.cell })) :=
  ⟨sampleWritten_reachable, Or.inl rfl,
   terminal_status_implies_join_ready Nat Nat sampleWritten
     sampleWritten_reachable (Or.inl rfl)⟩

/-- Whether an adjacent pair of trace states is the status-write step
(the transition out of the `completed` phase). -/
def isWritePair {T E : Type} (s t : SysState T E) : Bool :=
  match s.phase, t.phase with
  | Phase.completed _, Phase.written _ => true
  | _, _ => false

/-- Number of status-write steps occurring in a trace. -/
def writeCount {T E : Type} (tr : List (SysState T E)) : Nat :=
  (tr.zip tr.tail).countP fun p => isWritePair p.1 p.2

theorem complete_trace_shape {T E : Type} (tr : List (SysState T E))
    (r : Except E T) (c : StatusCell)
    (hchain : List.Chain' Step tr)
    (hhead : tr.head? = some (initState T E))
    (hlast : tr.getLast? = some { phase := Phase.terminated r, cell := c }) :
    tr = [initState T E,
          { phase := Phase.completed r, cell := (initState T E).cell },
          { phase := Phase.written r,
            cell := { value := terminalOf r, poisoned := false } },
          { phase := Phase.terminated r,
            cell := { value := terminalOf r, poisoned := false } }] ∧
    c = { value := terminalOf r, poisoned := false } := by
  rcases tr with _ | ⟨s0, tl⟩
  · simp at hhead
  simp at hhead
  subst hhead
  rcases tl with _ | ⟨s1, tl1⟩
  · simp [initState] at hlast
  rw [List.chain'_cons] at hchain
  obtain ⟨h01, hchain⟩ := hchain
  cases h01 with
  | complete r1 c0 =>
    rcases tl1 with _ | ⟨s2, tl2⟩
    · simp [List.getLast?] at hlast
    rw [List.chain'_cons] at hchain
    obtain ⟨h12, hchain⟩ := hchain
    cases h12 with
    | write r2 c1 =>
      rcases tl2 with _ | ⟨s3, tl3⟩
      · simp [List.getLast?] at hlast
      rw [List.chain'_cons] at hchain
      obtain ⟨h23, hchain⟩ := hchain
      cases h23 with
      | publish r3 c2 =>
        rcases tl3 with _ | ⟨s4, tl4⟩
        · simp [List.getLast?] at hlast
          obtain ⟨hr, hc⟩ := hlast
          subst hr
          cases r1 with
          | ok v => simp_all [workerBody, terminalOf, initState]
          | error e => simp_all [workerBody, terminalOf, initState]
        · rw [List.chain'_cons] at hchain
          obtain ⟨h34, hchain⟩ := hchain
          cases h34

/-- Claim C6: over every complete execution of a spawned worker (a step
chain from the post-spawn state to a terminated state) the status write
occurs exactly once; it is a step of the worker itself (the transition
system has no other writer), its source state is the `completed` phase, so
it happens only after the user code has returned or panicked; and it is
actually performed — the lock is unpoisoned at write time in every such
execution, so the final cell really holds the terminal status. -/
theorem status_write_exactly_once :
    ∀ (T E : Type) (tr : List (SysState T E)) (r : Except E T)
      (c : StatusCell),
      List.Chain' Step tr →
      tr.head? = some (initState T E) →
      tr.getLast? = some { phase := Phase.terminated r, cell := c } →
      writeCount tr = 1 ∧
      tr = [initState T E,
            { phase := Phase.completed r, cell := (initState T E).cell },
            { phase := Phase.written r,
              cell := { value := terminalOf r, poisoned := false } },
            { phase := Phase.terminated r,
              cell := { value := terminalOf r, poisoned := false } }] ∧
      c.value = terminalOf r ∧ c.poisoned = false := by
  intro T E tr r c hchain hhead hlast
  obtain ⟨htr, hc⟩ := complete_trace_shape tr r c hchain hhead hlast
  subst htr
  subst hc
  exact ⟨rfl, rfl, rfl, rfl⟩

/-- The outcome of a worker whose user code panicked with payload `7`. -/
def sampleOutcomeErr : Except Nat Nat := Except.error 7

/-- The final cell of the panicking sample execution. -/
def sampleCellErr : StatusCell :=
  { value := ThreadStatus.Panicked, poisoned := false }

/-- A complete concrete execution trace of a panicking worker. -/
def sampleTrace : List (SysState Nat Nat) :=
  [initState Nat Nat,
   { phase := Phase.completed sampleOutcomeErr,
     cell := { value := ThreadStatus.Running, poisoned := false } },
   { phase := Phase.written sampleOutcomeErr, cell := sampleCellErr },
   { phase := Phase.terminated sampleOutcomeErr, cell := sampleCellErr }]

theorem sampleTrace_chain : List.Chain' Step sampleTrace := by
  refine List.Chain.cons ?_ (List.Chain.cons ?_ (List.Chain.cons ?_ List.Chain.nil))
  · exact Step.complete sampleOutcomeErr
      { value := ThreadStatus.Running, poisoned := false }
  · exact Step.write sampleOutcomeErr
      { value := ThreadStatus.Running, poisoned := false }
  · exact Step.publish sampleOutcomeErr sampleCellErr

/-- Instance of the write-exactly-once theorem on a concrete trace. -/
theorem status_write_exactly_once_witness :
    List.Chain' Step sampleTrace ∧
    sampleTrace.head? = some (initState Nat Nat) ∧
    sampleTrace.getLast? =
      some { phase := Phase.terminated sampleOutcomeErr,
             cell := sampleCellErr } ∧
    (writeCount sampleTrace = 1 ∧
      sampleTrace = [initState Nat Nat,
        { phase := Phase.completed sampleOutcomeErr,
          cell := (initState Nat Nat).cell },
        { phase := Phase.written sampleOutcomeErr,
          cell := { value := terminalOf sampleOutcomeErr, poisoned := false } },
        { phase := Phase.terminated sampleOutcomeErr,
          cell := { value := terminalOf sampleOutcomeErr, poisoned := false } }] ∧
      sampleCellErr.value = terminalOf sampleOutcomeErr ∧
      sampleCellErr.poisoned = false) :=
  ⟨sampleTrace_chain, rfl, rfl,
   status_write_exactly_once Nat Nat sampleTrace sampleOutcomeErr sampleCellErr
     sampleTrace_chain rfl rfl⟩
